import Mathlib

/-!
Verification of the SAFT-gamma-SW equation-of-state core of despasito,
as a shallow embedding in Lean 4.

Source files embedded:
  despasito/equations_of_state/saft/gamma_sw.py  (the EOS object gamma_sw)
  despasito/thermodynamics/calc_types.py         (the per-point phase-equilibrium wrappers)

Modelling conventions:
  - machine floats are modelled by rationals; where a routine can observe an
    IEEE NaN we use the type PVal (nan or a rational value);
  - numpy library functions that are irrational on rationals (np.log, np.log1p,
    np.sqrt, np.pi, the unit constant molecule_per_nm3) and the collaborator
    routines that live outside the staged source files
    (saft_toolbox.calc_KHS, saft_toolbox.calc_composition_dependent_variables,
    toolbox.cross_interaction_from_dict, Aassoc.calc_bonding_volume) are
    either quantified function parameters or, where a claim needs a concrete
    value, definitions modelled from the spec (marked in their doc comments);
  - a Python raise is an Except.error carrying a PyErr tag;
  - fixed-size matrices are functions over Fin n, density arrays are lists,
    vectorized numpy expressions are List.map / List.zipWith.
-/

namespace DespasitoSW

/-- A floating-point value as the density check observes it: either NaN or a
real (here rational) number. -/
inductive PVal where
  | nan : PVal
  | val : ℚ → PVal
deriving DecidableEq

namespace PVal

/-- np.isnan on one entry. -/
def isNaN : PVal → Bool
  | nan => true
  | val _ => false

/-- The comparison rho < 0 on one entry; IEEE (and numpy) compare NaN as
false against every number. -/
def isNeg : PVal → Bool
  | nan => false
  | val q => q < 0

/-- IEEE addition restricted to what the embedded code can produce:
NaN propagates through. -/
def add : PVal → PVal → PVal
  | nan, _ => nan
  | _, nan => nan
  | val a, val b => val (a + b)

/-- IEEE subtraction, NaN propagating. -/
def sub : PVal → PVal → PVal
  | nan, _ => nan
  | _, nan => nan
  | val a, val b => val (a - b)

/-- A finite scalar times a possibly-NaN value (numpy: x * nan = nan, also
for x = 0). -/
def smul (q : ℚ) : PVal → PVal
  | nan => nan
  | val b => val (q * b)

/-- IEEE negation (numpy: -nan = nan). -/
def neg : PVal → PVal
  | nan => nan
  | val a => val (-a)

/-- Left fold of IEEE addition starting from 0.0, the accumulation pattern
of the source loops. -/
def lsum (ts : List PVal) : PVal := ts.foldl add (val 0)

end PVal

/-- The exceptions the embedded routines can raise.  nameError models the
Python NameError raised by an unbound local variable. -/
inductive PyErr where
  | nanDensity : PyErr
  | emptyDensity : PyErr
  | negativeDensity : PyErr
  | densityGuard : PyErr
  | nameError : PyErr
deriving DecidableEq

/-- The shapes of density input the source hands to _check_density: a numpy
scalar, a 1-D array (or plain list), or a 2-D array given as its rows. -/
inductive RhoInput where
  | scalar : PVal → RhoInput
  | one : List PVal → RhoInput
  | two : List (List PVal) → RhoInput

/-- The checks of gamma_sw._check_density (gamma_sw.py lines 721-726), run
after the input has been brought to 1-D: NaN first, then emptiness, then
negativity; a passing array is returned unchanged. -/
def check_density_core (l : List PVal) : Except PyErr (List PVal) :=
  if l.any PVal.isNaN then .error .nanDensity
  else if l = [] then .error .emptyDensity
  else if l.any PVal.isNeg then .error .negativeDensity
  else .ok l

/-- gamma_sw._check_density (gamma_sw.py lines 704-728).  A scalar is promoted
to a one-element array; a 2-D array is replaced by its row 0 (line 718-719)
before any validity check runs.  (A 2-D numpy array always has a row 0; the
headD default is never reached on inputs that numpy would call 2-D.) -/
def check_density : RhoInput → Except PyErr (List PVal)
  | .scalar v => check_density_core [v]
  | .one l => check_density_core l
  | .two ll => check_density_core (ll.headD [])

/-- The same source checks on a NaN-free array, the form in which every
numeric routine of the embedding consumes its density argument (a list of
rationals has no NaN, so the NaN branch of the source cannot fire). -/
def check_density_pos (rho : List ℚ) : Except PyErr (List ℚ) :=
  if rho = [] then .error .emptyDensity
  else if rho.any (fun r => r < 0) then .error .negativeDensity
  else .ok rho

/-- The numeric fields of the gamma_sw EOS object (its eos_dict and cached
attributes) for nc components built from nb bead types.  alphakl is the
van-der-Waals attraction strength computed once at construction
(gamma_sw.py line 120); Cmol2seg and xskl are the composition-dependent
cache, valid for the composition xi (none models the initial self.xi = NaN). -/
structure EosState (nc nb : ℕ) where
  nui : Fin nc → Fin nb → ℚ
  Vks : Fin nb → ℚ
  Sk : Fin nb → ℚ
  num_rings : Fin nc → ℚ
  sigma_kl : Fin nb → Fin nb → ℚ
  epsilon_kl : Fin nb → Fin nb → ℚ
  lambda_kl : Fin nb → Fin nb → ℚ
  sigma_ij : Fin nc → Fin nc → ℚ
  epsilon_ij : Fin nc → Fin nc → ℚ
  lambda_ij : Fin nc → Fin nc → ℚ
  alphakl : Fin nb → Fin nb → ℚ
  xi : Option (Fin nc → ℚ)
  Cmol2seg : ℚ
  xskl : Fin nb → Fin nb → ℚ

/-- The external collaborators of gamma_sw.py that are not part of its own
code: the constants np.pi and constants.molecule_per_nm3, the numpy library
functions sqrt/log1p/log (log may return NaN, which Achain observes), the
shared toolbox routines saft_toolbox.calc_KHS and
saft_toolbox.calc_composition_dependent_variables (the latter returns the
pair (Cmol2seg, xskl) for a composition).  Theorems quantify over this
record unless a claim needs concrete values. -/
structure Ext (nc nb : ℕ) where
  pi : ℚ
  molecule_per_nm3 : ℚ
  sqrt : ℚ → ℚ
  log1p : ℚ → ℚ
  log : ℚ → PVal
  calc_KHS : ℚ → ℚ
  compDepVars : (Fin nc → ℚ) → ℚ × (Fin nb → Fin nb → ℚ)

section Core

variable {nc nb : ℕ}

/-- gamma_sw._check_composition_dependent_parameters (lines 730-751): if the
cached composition differs from xi (the initial NaN compares unequal to
everything), recompute Cmol2seg and xskl through the toolbox collaborator
and remember xi. -/
def checkComp (st : EosState nc nb) (ext : Ext nc nb) (xi : Fin nc → ℚ) :
    EosState nc nb :=
  let recompute : EosState nc nb :=
    { st with Cmol2seg := (ext.compDepVars xi).1, xskl := (ext.compDepVars xi).2,
              xi := some xi }
  match st.xi with
  | some x => if x = xi then st else recompute
  | none => recompute

/-- One moment of the reduced density (gamma_sw.reduced_density, line 190-194):
rho2 * ( sum_k sqrt(xskl_kk) * sigma_kk^m ) * pi/6 with
rho2 = rho * molecule_per_nm3 * Cmol2seg. -/
def zetaM (st : EosState nc nb) (ext : Ext nc nb) (r : ℚ) (m : ℕ) : ℚ :=
  r * ext.molecule_per_nm3 * st.Cmol2seg *
    ((∑ k, ext.sqrt (st.xskl k k) * st.sigma_kl k k ^ m) * (ext.pi / 6))

/-- gamma_sw.reduced_density (lines 170-196): check the density array, refresh
the composition cache, then the 4 moments per density point. -/
def reduced_density (st : EosState nc nb) (ext : Ext nc nb) (rho : List ℚ)
    (xi : Fin nc → ℚ) : Except PyErr (List (Fin 4 → ℚ)) := do
  let rho' ← check_density_pos rho
  let st' := checkComp st ext xi
  .ok (rho'.map fun r => fun m => zetaM st' ext r (m : ℕ))

/-- The m = 3 column of the reduced density matrix on an already validated
array (the zetax = reduced_density(rho, xi)[:,3] idiom of the source). -/
def zeta3_body (st : EosState nc nb) (ext : Ext nc nb) (rho : List ℚ) :
    List ℚ :=
  rho.map fun r => zetaM st ext r 3

/-- The module-level coefficient matrix ckl_coef (gamma_sw.py line 32). -/
def ckl_coef : Fin 3 → Fin 3 → ℚ :=
  ![![2.25855, -1.50349, 0.249434],
    ![-0.669270, 1.40049, -0.827739],
    ![10.1576, -15.0427, 5.30827]]

/-- cikl = np.dot(ckl_coef, (1, lambda, lambda^2)) for one bead pair
(lines 240 and 285). -/
def cikl (lam : ℚ) (i : Fin 3) : ℚ :=
  ∑ j : Fin 3, ckl_coef i j * lam ^ (j : ℕ)

/-- One entry of gamma_sw.effective_packing_fraction (lines 198-243) at one
density point: dot((zetax, zetax^2, zetax^3), cikl), and 0 for a pair whose
exponent is exactly zero.  The lambda matrix is the one the mode argument
selects (lambda_kl for "normal", lambda_ij for "effective"). -/
def zetakl_pt {L : ℕ} (lambdakl : Fin L → Fin L → ℚ) (zx : ℚ)
    (k l : Fin L) : ℚ :=
  if lambdakl k l ≠ 0 then ∑ i : Fin 3, zx ^ ((i : ℕ) + 1) * cikl (lambdakl k l) i
  else 0

/-- One entry of gamma_sw._dzetaeff_dzetax (lines 245-288) at one density
point: dot((1, 2 zetax, 3 zetax^2), cikl), again 0 for a zero exponent. -/
def dzetakl_pt {L : ℕ} (lambdakl : Fin L → Fin L → ℚ) (zx : ℚ)
    (k l : Fin L) : ℚ :=
  if lambdakl k l ≠ 0 then
    ∑ i : Fin 3, (((i : ℕ) + 1 : ℕ) : ℚ) * zx ^ (i : ℕ) * cikl (lambdakl k l) i
  else 0

/-- One entry of gamma_sw.calc_g0HS (lines 445-476) at one density point:
(1 - zeta_eff/2) / (1 - zeta_eff)^3 at the effective packing fraction of the
selected mode. -/
def g0HS_pt {L : ℕ} (lambdakl : Fin L → Fin L → ℚ) (zx : ℚ)
    (k l : Fin L) : ℚ :=
  (1 - zetakl_pt lambdakl zx k l / 2) / (1 - zetakl_pt lambdakl zx k l) ^ 3

/-- gamma_sw.Ahard_sphere at one density point (lines 313-319), written from
the zeta moments of that point. -/
def AHS_pt (st : EosState nc nb) (ext : Ext nc nb) (r : ℚ) : ℚ :=
  let z : ℕ → ℚ := zetaM st ext r
  (6 / (ext.pi * r * ext.molecule_per_nm3)) *
    (ext.log1p (-(z 3)) * ((z 2) ^ 3 / (z 3) ^ 2 - z 0)
      + 3 * (z 2) * (z 1) / (1 - z 3)
      + (z 2) ^ 3 / ((z 3) * (1 - z 3) ^ 2))

/-- gamma_sw.Ahard_sphere (lines 291-323): density check, composition cache
refresh, then the closed form per density point.  T is accepted and unused,
as in the source. -/
def Ahard_sphere (st : EosState nc nb) (ext : Ext nc nb) (rho : List ℚ)
    (T : ℚ) (xi : Fin nc → ℚ) : Except PyErr (List ℚ) := do
  let rho' ← check_density_pos rho
  let st' := checkComp st ext xi
  .ok (rho'.map fun r => AHS_pt st' ext r)

/-- gamma_sw.Afirst_order at one density point (lines 352-355):
-(Cmol2seg^2/T) * sum_kl (rho * molecule_per_nm3) * xskl * alphakl * g0HS. -/
def A1_pt (st : EosState nc nb) (ext : Ext nc nb) (T r zx : ℚ) : ℚ :=
  -(st.Cmol2seg ^ 2 / T) *
    ∑ k, ∑ l, (r * ext.molecule_per_nm3) * (st.xskl k l * st.alphakl k l) *
      g0HS_pt st.lambda_kl zx k l

/-- gamma_sw.Afirst_order (lines 325-359).  zetax defaults to the m = 3
reduced density of the validated array. -/
def Afirst_order (st : EosState nc nb) (ext : Ext nc nb) (rho : List ℚ)
    (T : ℚ) (xi : Fin nc → ℚ) (zetax : Option (List ℚ)) :
    Except PyErr (List ℚ) := do
  let rho' ← check_density_pos rho
  let st' := checkComp st ext xi
  let zx := zetax.getD (zeta3_body st' ext rho')
  .ok ((List.zip rho' zx).map fun p => A1_pt st' ext T p.1 p.2)

/-- gamma_sw.Asecond_order at one density point (lines 398-406), with the
sign exactly as the source writes it on line 406: a LEADING PLUS, although
the comment on line 405 says the negative sign belongs in this final
expression.  kh is the KHS value at this point, and the source local
rho2 = Cmol2seg * rho * molecule_per_nm3 (line 398) is written inline. -/
def A2_pt (st : EosState nc nb) (ext : Ext nc nb) (T r zx kh : ℚ) : ℚ :=
  st.Cmol2seg / T ^ 2 *
    ∑ k, ∑ l, (kh * (st.Cmol2seg * r * ext.molecule_per_nm3) / 2 *
        (st.epsilon_kl k l * st.alphakl k l * st.xskl k l)) *
      (g0HS_pt st.lambda_kl zx k l
        + zx * dzetakl_pt st.lambda_kl zx k l *
          (5 / 2 - zetakl_pt st.lambda_kl zx k l) /
          (1 - zetakl_pt st.lambda_kl zx k l) ^ 4)

/-- gamma_sw.Asecond_order (lines 361-410).  zetax defaults to the m = 3
reduced density, KHS to the shared-toolbox compressibility of zetax. -/
def Asecond_order (st : EosState nc nb) (ext : Ext nc nb) (rho : List ℚ)
    (T : ℚ) (xi : Fin nc → ℚ) (zetax KHS : Option (List ℚ)) :
    Except PyErr (List ℚ) := do
  let rho' ← check_density_pos rho
  let st' := checkComp st ext xi
  let zx := zetax.getD (zeta3_body st' ext rho')
  let kh := KHS.getD (zx.map ext.calc_KHS)
  .ok ((List.zip rho' (List.zip zx kh)).map fun p =>
    A2_pt st' ext T p.1 p.2.1 p.2.2)

/-- The final Asecond_order combination at one density point exactly as claim
C2 (and the source comment on line 405) states it, with the overall negative
sign applied once at the final summation:
-(Cmol2seg / T^2) * sum_kl KHS * rho_s / 2 * epsilon_kl * alphakl * xskl *
(g0HS + zetax * dzetaeff_dzetax * (2.5 - zeta_eff) / (1 - zeta_eff)^4),
where rho_s = Cmol2seg * rho * molecule_per_nm3 is the segment number
density. -/
def A2_pt_claimed (st : EosState nc nb) (ext : Ext nc nb) (T r zx kh : ℚ) : ℚ :=
  -(st.Cmol2seg / T ^ 2) *
    ∑ k, ∑ l, kh * (st.Cmol2seg * r * ext.molecule_per_nm3) / 2 *
      st.epsilon_kl k l * st.alphakl k l * st.xskl k l *
      (g0HS_pt st.lambda_kl zx k l
        + zx * dzetakl_pt st.lambda_kl zx k l *
          (5 / 2 - zetakl_pt st.lambda_kl zx k l) /
          (1 - zetakl_pt st.lambda_kl zx k l) ^ 4)

/-- Asecond_order as claim C2 describes it (same pipeline as the source, with
the final sign negative). -/
def Asecond_order_claimed (st : EosState nc nb) (ext : Ext nc nb)
    (rho : List ℚ) (T : ℚ) (xi : Fin nc → ℚ) (zetax KHS : Option (List ℚ)) :
    Except PyErr (List ℚ) := do
  let rho' ← check_density_pos rho
  let st' := checkComp st ext xi
  let zx := zetax.getD (zeta3_body st' ext rho')
  let kh := KHS.getD (zx.map ext.calc_KHS)
  .ok ((List.zip rho' (List.zip zx kh)).map fun p =>
    A2_pt_claimed st' ext T p.1 p.2.1 p.2.2)

/-- gamma_sw.density_max (lines 602-628): invert the zeta_3 formula at the
packing fraction maxpack (the source default is 0.65). -/
def density_max (st : EosState nc nb) (ext : Ext nc nb) (xi : Fin nc → ℚ)
    (T maxpack : ℚ) : ℚ :=
  let st' := checkComp st ext xi
  maxpack * 6 /
      (st'.Cmol2seg * ext.pi * ∑ k, ∑ l, st'.xskl k l * st'.sigma_kl k l ^ 3) /
    ext.molecule_per_nm3

/-- gamma_sw.Amonomer (lines 412-443): first the all-entries guard against
density_max (line 433, np.all of a strict comparison), then the density
check, then AHS + A1 + A2 with a shared zetax. -/
def Amonomer (st : EosState nc nb) (ext : Ext nc nb) (rho : List ℚ)
    (T : ℚ) (xi : Fin nc → ℚ) : Except PyErr (List ℚ) :=
  if rho.all (fun r => density_max st ext xi T (13 / 20) < r) then
    .error .densityGuard
  else do
    let rho' ← check_density_pos rho
    let zeta ← reduced_density st ext rho' xi
    let zetax := zeta.map fun z => z 3
    let ahs ← Ahard_sphere st ext rho' T xi
    let a1 ← Afirst_order st ext rho' T xi (some zetax)
    let a2 ← Asecond_order st ext rho' T xi (some zetax) none
    .ok (List.zipWith (· + ·) (List.zipWith (· + ·) ahs a1) a2)

/-- gamma_sw.calc_gHS at one density point (lines 500-510), entry (i, j):
the Boublik closed form from the zeta moments and the component averaged
diameters sigma_ij. -/
def gHS_pt (st : EosState nc nb) (ext : Ext nc nb) (r : ℚ)
    (i j : Fin nc) : ℚ :=
  let z : ℕ → ℚ := zetaM st ext r
  let tmp1 := 1 / (1 - z 3)
  let tmp2 := z 2 / (1 - z 3) ^ 2
  let tmp3 := (z 2) ^ 2 / (1 - z 3) ^ 3
  let tmp := ext.molecule_per_nm3 * st.sigma_ij i i * st.sigma_ij j j /
    (st.sigma_ij i i + st.sigma_ij j j)
  tmp1 + 3 * tmp * tmp2 + 2 * tmp ^ 2 * tmp3

/-- The coefficient matrix dckl_coef of calc_gSW (line 548). -/
def dckl_coef : Fin 3 → Fin 2 → ℚ :=
  ![![-1.50349, 0.249434], ![1.40049, -0.827739], ![-15.0427, 5.30827]]

/-- dzetaijdlambda of calc_gSW (lines 549-554) at one density point:
dot((zetax, zetax^2, zetax^3), dot(dckl_coef, (1, 2 lambda_ij))). -/
def dzetaijdlambda_pt (lam zx : ℚ) : ℚ :=
  ∑ i : Fin 3, zx ^ ((i : ℕ) + 1) * (dckl_coef i 0 * 1 + dckl_coef i 1 * (2 * lam))

/-- gamma_sw.calc_gSW at one density point (lines 535-561), entry (i, j).
The effective (component averaged) parameters are used for g0HS, the
effective packing fraction and its derivatives; the source computes
kT = T * kb on line 537 but never uses it. -/
def gSW_pt (st : EosState nc nb) (ext : Ext nc nb) (T r zx : ℚ)
    (i j : Fin nc) : ℚ :=
  let lam := st.lambda_ij i j
  let zeff := zetakl_pt st.lambda_ij zx i j
  let g0 := (1 - zeff / 2) / (1 - zeff) ^ 3
  let dg0 := (5 / 2 - zeff) / (1 - zeff) ^ 4
  let dzeff := lam / 3 * dzetaijdlambda_pt lam zx - zx * dzetakl_pt st.lambda_ij zx i j
  gHS_pt st ext r i j + st.epsilon_ij i j / T * (g0 + (lam ^ 3 - 1) * dg0 * dzeff)

/-- gamma_sw.calc_gSW (lines 514-561): density check, composition cache
refresh, zetax defaulting to the m = 3 reduced density, then the square-well
contact correlation matrix per density point. -/
def calc_gSW (st : EosState nc nb) (ext : Ext nc nb) (rho : List ℚ)
    (T : ℚ) (xi : Fin nc → ℚ) (zetax : Option (List ℚ)) :
    Except PyErr (List (Fin nc → Fin nc → ℚ)) := do
  let rho' ← check_density_pos rho
  let st' := checkComp st ext xi
  let zx := zetax.getD (zeta3_body st' ext rho')
  .ok ((List.zip rho' zx).map fun p => fun i j => gSW_pt st' ext T p.1 p.2 i j)

/-- gamma_sw.calc_gr_assoc (lines 630-655): validate the density and return
calc_gSW; the Ktype argument is accepted but never read by the body. -/
def calc_gr_assoc (st : EosState nc nb) (ext : Ext nc nb) (rho : List ℚ)
    (T : ℚ) (xi : Fin nc → ℚ) (Ktype : String) :
    Except PyErr (List (Fin nc → Fin nc → ℚ)) := do
  let rho' ← check_density_pos rho
  calc_gSW st ext rho' T xi none

/-- The beadsum accumulator of gamma_sw.Achain (lines 590-592): started at
-1.0 + num_rings[i], then summed with nui[i,k] * Vks[k] * Sk[k] over beads. -/
def beadsum (st : EosState nc nb) (i : Fin nc) : ℚ :=
  (-1 + st.num_rings i) + ∑ k, st.nui i k * st.Vks k * st.Sk k

/-- gamma_sw.Achain (lines 563-600): density check, the diagonal of calc_gSW,
then the accumulation Achain -= xi[i] * beadsum * log(gii) over components,
per density point; the result is the pair (value array, whether the source
logs the some-values-are-NaN error on line 595-596).  The NaN test is the
only consumer of the value; the array is returned unchanged either way. -/
def Achain (st : EosState nc nb) (ext : Ext nc nb) (rho : List ℚ)
    (T : ℚ) (xi : Fin nc → ℚ) : Except PyErr (List PVal × Bool) := do
  let rho' ← check_density_pos rho
  let gii ← calc_gSW st ext rho' T xi none
  let A : List PVal := gii.map fun g =>
    (List.finRange nc).foldl
      (fun acc i => acc.sub (PVal.smul (xi i * beadsum st i) (ext.log (g i i))))
      (PVal.val 0)
  .ok (A, A.any PVal.isNaN)

/-- dij_bar of gamma_sw.calc_Kijklab (lines 675-678).  The source indexes the
ncomp x ncomp matrix sigma_ij with a single index, so np.mean sees the two
ROWS i and j and averages all their 2*ncomp entries. -/
def dij_bar (st : EosState nc nb) (i j : Fin nc) : ℚ :=
  ((∑ l, st.sigma_ij i l) + (∑ l, st.sigma_ij j l)) / (2 * (nc : ℚ))

/-- gamma_sw.calc_Kijklab (lines 657-682): build dij_bar and delegate to
Aassoc.calc_bonding_volume, an external collaborator quantified here as the
function argument bondingVolume.  T is accepted for interface uniformity and
never read, rc_klab / rd_klab / reduction_ratio are passed through. -/
def calc_Kijklab {RC RD K : Type} (st : EosState nc nb)
    (bondingVolume : RC → (Fin nc → Fin nc → ℚ) → Option RD → ℚ → K)
    (T : ℚ) (rc_klab : RC) (rd_klab : Option RD) (reduction_ratio : ℚ) : K :=
  bondingVolume rc_klab (dij_bar st) rd_klab reduction_ratio

/-- The gamma_sw object together with its parameter store, for
parameter_refresh: the two libraries have an abstract type L (a Python dict
updated in place). -/
structure GammaSW (nc nb : ℕ) (L : Type) where
  core : EosState nc nb
  beadlibrary : L
  crosslibrary : L

/-- gamma_sw.parameter_refresh (lines 684-702).  The collaborators are
arguments: dictUpdate is dict.update, crossEngine is
toolbox.cross_interaction_from_dict returning the (sigma, epsilon, lambda)
bead-pair matrices, avgProps is calc_component_averaged_properties
(lines 122-168, which itself delegates to the same toolbox engine) returning
the component averaged matrices.  After updating the matrices the source
tests whether a composition has been set (line 701) and, if so, evaluates
stb.calc_composition_dependent_variables(xi, ...) on line 702 -- where the
name xi is an UNBOUND local variable (the attribute is self.xi), so Python
raises NameError at that point. -/
def parameter_refresh {L : Type} (dictUpdate : L → L → L)
    (crossEngine : L → L →
      (Fin nb → Fin nb → ℚ) × (Fin nb → Fin nb → ℚ) × (Fin nb → Fin nb → ℚ))
    (avgProps : EosState nc nb →
      (Fin nc → Fin nc → ℚ) × (Fin nc → Fin nc → ℚ) × (Fin nc → Fin nc → ℚ))
    (g : GammaSW nc nb L) (beadlibrary crosslibrary : L) :
    Except PyErr (GammaSW nc nb L) :=
  let blib := dictUpdate g.beadlibrary beadlibrary
  let clib := dictUpdate g.crosslibrary crosslibrary
  let m := crossEngine blib clib
  let core1 := { g.core with sigma_kl := m.1, epsilon_kl := m.2.1,
                             lambda_kl := m.2.2 }
  let a := avgProps core1
  let core2 := { core1 with sigma_ij := a.1, lambda_ij := a.2.2,
                            epsilon_ij := a.2.1 }
  match core2.xi with
  | some _ => .error .nameError
  | none => .ok { g with core := core2, beadlibrary := blib, crosslibrary := clib }

end Core

/-- Modelled from the spec: saft_toolbox.calc_composition_dependent_variables
is not among the staged source files.  Spec section 3 describes its output as
the composition-dependent segment fractions xskl, derived from the mole
fractions and the composition matrix, with occupied-volume weights
nui[i,k] * Vk[k] * Sk[k] (the weights the spec gives for zki), and spec
section 4.2 reads the vector of per-bead segment fractions back off as
sqrt(xskl diagonal), so xskl is the outer product of the normalized
occupied-volume segment fractions; Cmol2seg is the molecule-to-segment
conversion factor the same weights define. -/
def calc_composition_dependent_variables {nc nb : ℕ}
    (nui : Fin nc → Fin nb → ℚ) (Vks Sk : Fin nb → ℚ) (xi : Fin nc → ℚ) :
    ℚ × (Fin nb → Fin nb → ℚ) :=
  let C : ℚ := ∑ i, xi i * ∑ k, nui i k * Vks k * Sk k
  let xs : Fin nb → ℚ := fun k => (∑ i, xi i * nui i k * Vks k * Sk k) / C
  (C, fun k l => xs k * xs l)

/-- A computable rational stand-in for np.sqrt, exact on rationals whose
numerator and denominator are perfect squares; the concrete theorems below
only apply it to such arguments. -/
def sqrtQ (q : ℚ) : ℚ :=
  (Nat.sqrt q.num.toNat : ℚ) / (Nat.sqrt q.den : ℚ)

/-- A concrete instantiation of the external collaborators, for the closed
theorems: rational stand-ins for the transcendental library functions
(np.pi, molecule_per_nm3 and calc_KHS to 6+ digits or a plain placeholder;
log1p the identity; log with the IEEE domain behaviour, NaN at and below 0)
and the spec-modelled composition routine.  The closed theorems settled with
this record depend on control flow and on algebraic structure that cancels
these values, never on their numeric accuracy. -/
def extTest (nc nb : ℕ) (nui : Fin nc → Fin nb → ℚ) (Vks Sk : Fin nb → ℚ) :
    Ext nc nb where
  pi := 3.14159
  molecule_per_nm3 := 0.602214076
  sqrt := sqrtQ
  log1p := fun q => q
  log := fun q => if q ≤ 0 then .nan else .val (q - 1)
  calc_KHS := fun _ => 1
  compDepVars := calc_composition_dependent_variables nui Vks Sk

/-- alphakl as the gamma_sw constructor computes it (line 120):
2 pi / 3 * epsilon_kl * sigma_kl^3 * (lambda_kl^3 - 1). -/
def alphakl_of {nb : ℕ} (pi : ℚ) (sigma epsilon lam : Fin nb → Fin nb → ℚ) :
    Fin nb → Fin nb → ℚ :=
  fun k l => 2 * pi / 3 * epsilon k l * sigma k l ^ 3 * (lam k l ^ 3 - 1)

/-- Collaborators for a one-component, one-bead test system. -/
def ext1 : Ext 1 1 := extTest 1 1 ![![1]] ![1] ![1]

/-- A one-component, one-bead test state: sigma = epsilon = 1, lambda = 3/2,
Vks = Sk = 1, no rings.  The composition cache is pre-set to the values the
spec-modelled composition routine of ext1 yields at xi = [1] (Cmol2seg = 1,
xskl = [[1]]; consistency proved in ext1_compDepVars_consistent), modelling
the object after its first composition check. -/
def st1 : EosState 1 1 where
  nui := ![![1]]
  Vks := ![1]
  Sk := ![1]
  num_rings := ![0]
  sigma_kl := ![![1]]
  epsilon_kl := ![![1]]
  lambda_kl := ![![3 / 2]]
  sigma_ij := ![![1]]
  epsilon_ij := ![![1]]
  lambda_ij := ![![3 / 2]]
  alphakl := alphakl_of ext1.pi ![![1]] ![![1]] ![![3 / 2]]
  xi := some ![1]
  Cmol2seg := 1
  xskl := ![![1]]

/-- Collaborators for a one-component, two-bead test system. -/
def ext2 : Ext 1 2 := extTest 1 2 ![![1, 1]] ![1, 1] ![1, 1]

/-- A one-component, two-bead test state: diameters 1 and 2 with the
arithmetic-mean cross diameter 3/2 (the sigma mixing rule of spec section
4.1), epsilon = 1 and lambda = 3/2 throughout, Vks = Sk = 1.  The
composition cache is pre-set to the values the spec-modelled composition
routine of ext2 yields at xi = [1] (Cmol2seg = 2, segment fractions
xs = (1/2, 1/2), so xskl is constant 1/4; consistency proved in
ext2_compDepVars_consistent). -/
def st2 : EosState 1 2 where
  nui := ![![1, 1]]
  Vks := ![1, 1]
  Sk := ![1, 1]
  num_rings := ![0]
  sigma_kl := ![![1, 3 / 2], ![3 / 2, 2]]
  epsilon_kl := ![![1, 1], ![1, 1]]
  lambda_kl := ![![3 / 2, 3 / 2], ![3 / 2, 3 / 2]]
  sigma_ij := ![![3 / 2]]
  epsilon_ij := ![![1]]
  lambda_ij := ![![3 / 2]]
  alphakl := alphakl_of ext2.pi ![![1, 3 / 2], ![3 / 2, 2]] ![![1, 1], ![1, 1]]
    ![![3 / 2, 3 / 2], ![3 / 2, 3 / 2]]
  xi := some ![1]
  Cmol2seg := 2
  xskl := ![![1 / 4, 1 / 4], ![1 / 4, 1 / 4]]

/-- The maximum admissible density of the one-bead test system at the default
maximum packing fraction 0.65 = 13/20. -/
def dmax1 : ℚ := density_max st1 ext1 ![1] 300 (13 / 20)

/-! The per-point phase-equilibrium wrappers of
despasito/thermodynamics/calc_types.py.  The solver collaborators calc.calc_Psat,
calc.calc_xT_phase and calc.calc_yT_phase are external (spec section 1 excludes
them from the core), so they are function arguments here, as are the two dict
manipulations the wrappers perform on the options (adding Pguess, restricting
to rhodict). -/

namespace CalcTypes

/-- The per-point argument tuple of _phase_xiT_wrapper / _phase_yiT_wrapper:
(T, composition, eos, opts) with an optional fifth Pguess entry. -/
structure Args (O : Type) where
  T : ℚ
  zi : List ℚ
  opts : O
  Pguess : Option ℚ

/-- The composition slot of a wrapper result: an array, or the scalar NaN the
except-branch substitutes. -/
inductive CompOut where
  | arr : List ℚ → CompOut
  | nanScalar : CompOut
deriving DecidableEq

/-- What a wrapper returns for one (T, composition) point, in the source
return order P, composition, flagv, flagl, obj. -/
structure PointResult where
  P : PVal
  comp : CompOut
  flagv : ℚ
  flagl : ℚ
  obj : PVal
deriving DecidableEq

/-- calc_types._phase_xiT_wrapper (lines 141-167).  If exactly one mole
fraction is nonzero, the pure-component shortcut runs calc_Psat on the
rhodict-restricted options and returns (Psat, xi, 0, 1, 0.0); otherwise
calc_xT_phase supplies (P, yi, flagv, flagl, obj).  A solver exception is
caught and replaced by the NaN / flag-3 sentinel record. -/
def phase_xiT_wrapper {O E : Type}
    (calc_Psat : ℚ → List ℚ → O → Except E (ℚ × ℚ × ℚ))
    (calc_xT_phase : List ℚ → ℚ → O → Except E (ℚ × List ℚ × ℚ × ℚ × ℚ))
    (mergePguess : O → ℚ → O) (restrictRhodict : O → O) (a : Args O) :
    PointResult :=
  let opts := match a.Pguess with
    | some p => mergePguess a.opts p
    | none => a.opts
  if (a.zi.filter (fun z => z ≠ 0)).length = 1 then
    match calc_Psat a.T a.zi (restrictRhodict opts) with
    | .ok r => { P := .val r.1, comp := .arr a.zi, flagv := 0, flagl := 1, obj := .val 0 }
    | .error _ => { P := .nan, comp := .nanScalar, flagv := 3, flagl := 3, obj := .nan }
  else
    match calc_xT_phase a.zi a.T opts with
    | .ok r =>
      { P := .val r.1, comp := .arr r.2.1, flagv := r.2.2.1, flagl := r.2.2.2.1,
        obj := .val r.2.2.2.2 }
    | .error _ => { P := .nan, comp := .nanScalar, flagv := 3, flagl := 3, obj := .nan }

/-- calc_types._phase_yiT_wrapper (lines 290-317).  Same shape as the xiT
wrapper; note the source unpacks the mixture solver as
P, xi, flagl, flagv, obj = calc_yT_phase(...) (flags swapped relative to the
xiT wrapper) and then returns P, xi, flagv, flagl, obj. -/
def phase_yiT_wrapper {O E : Type}
    (calc_Psat : ℚ → List ℚ → O → Except E (ℚ × ℚ × ℚ))
    (calc_yT_phase : List ℚ → ℚ → O → Except E (ℚ × List ℚ × ℚ × ℚ × ℚ))
    (mergePguess : O → ℚ → O) (restrictRhodict : O → O) (a : Args O) :
    PointResult :=
  let opts := match a.Pguess with
    | some p => mergePguess a.opts p
    | none => a.opts
  if (a.zi.filter (fun z => z ≠ 0)).length = 1 then
    match calc_Psat a.T a.zi (restrictRhodict opts) with
    | .ok r => { P := .val r.1, comp := .arr a.zi, flagv := 0, flagl := 1, obj := .val 0 }
    | .error _ => { P := .nan, comp := .nanScalar, flagv := 3, flagl := 3, obj := .nan }
  else
    match calc_yT_phase a.zi a.T opts with
    | .ok r =>
      { P := .val r.1, comp := .arr r.2.1, flagv := r.2.2.2.1, flagl := r.2.2.1,
        obj := .val r.2.2.2.2 }
    | .error _ => { P := .nan, comp := .nanScalar, flagv := 3, flagl := 3, obj := .nan }

end CalcTypes

/-! Helper lemmas shared by the claim theorems. -/

section Helpers

variable {nc nb : ℕ}

theorem except_bind_ok {ε α β : Type} (a : α) (f : α → Except ε β) :
    (Except.ok a >>= f : Except ε β) = f a := rfl

theorem except_bind_error {ε α β : Type} (e : ε) (f : α → Except ε β) :
    ((Except.error e : Except ε α) >>= f) = .error e := rfl

theorem check_density_one (l : List PVal) :
    check_density (.one l) = check_density_core l := rfl

theorem check_density_scalar (v : PVal) :
    check_density (.scalar v) = check_density_core [v] := rfl

/-- The two embeddings of _check_density agree on NaN-free 1-D input. -/
theorem check_density_coherent (rho : List ℚ) :
    check_density (.one (rho.map PVal.val))
      = Except.map (List.map PVal.val) (check_density_pos rho) := by
  have hany : ∀ (p : PVal → Bool) (l : List ℚ),
      (l.map PVal.val).any p = l.any (fun r => p (.val r)) := by
    intro p l
    induction l with
    | nil => rfl
    | cons a t ih => simp [List.any_cons, ih]
  have hnan : (rho.map PVal.val).any PVal.isNaN = false := by
    rw [hany]
    simp [PVal.isNaN]
  have hneg : (rho.map PVal.val).any PVal.isNeg = rho.any fun r => r < 0 := by
    rw [hany]
    rfl
  have hemp : (List.map PVal.val rho = []) ↔ (rho = []) := by simp
  simp only [check_density, check_density_core, check_density_pos, hnan, hneg, hemp]
  by_cases h0 : rho = []
  · simp [h0, Except.map]
  · by_cases hn : rho.any (fun r => r < 0)
    · simp [h0, hn, Except.map]
    · simp [h0, hn, Except.map]

theorem check_density_pos_ok {rho l : List ℚ}
    (h : check_density_pos rho = .ok l) : l = rho := by
  unfold check_density_pos at h
  split at h
  · cases h
  · split at h
    · cases h
    · injection h with hh
      exact hh.symm

theorem check_density_pos_idem {rho l : List ℚ}
    (h : check_density_pos rho = .ok l) : check_density_pos l = .ok l := by
  have := check_density_pos_ok h
  subst this
  exact h

theorem check_density_pos_of_valid {rho : List ℚ} (hne : rho ≠ [])
    (hpos : ∀ r ∈ rho, 0 ≤ r) : check_density_pos rho = .ok rho := by
  unfold check_density_pos
  have hneg : rho.any (fun r => r < 0) = false := by
    rw [List.any_eq_false]
    intro r hr
    simpa using hpos r hr
  simp [hne, hneg]

/-- When the cached composition already equals the requested one, the
composition check leaves the state untouched (the source if-test on line
749 fails). -/
theorem checkComp_cached {st : EosState nc nb} {ext : Ext nc nb}
    {xi : Fin nc → ℚ} (h : st.xi = some xi) : checkComp st ext xi = st := by
  unfold checkComp
  rw [h]
  simp

theorem checkComp_st1 : checkComp st1 ext1 ![1] = st1 := checkComp_cached rfl

theorem checkComp_st2 : checkComp st2 ext2 ![1] = st2 := checkComp_cached rfl

/-- The pre-set composition cache of st1 agrees with the spec-modelled
composition routine of ext1 at xi = [1]. -/
theorem ext1_compDepVars_consistent :
    ext1.compDepVars ![1] = (st1.Cmol2seg, st1.xskl) := by
  rw [Prod.ext_iff]
  constructor
  · show (calc_composition_dependent_variables ![![1]] ![1] ![1] ![1]).1 = _
    simp [calc_composition_dependent_variables, Fin.sum_univ_one, st1]
  · show (calc_composition_dependent_variables ![![1]] ![1] ![1] ![1]).2 = _
    funext k l
    fin_cases k <;> fin_cases l <;>
      simp [calc_composition_dependent_variables, Fin.sum_univ_one, st1]

/-- The pre-set composition cache of st2 agrees with the spec-modelled
composition routine of ext2 at xi = [1]. -/
theorem ext2_compDepVars_consistent :
    ext2.compDepVars ![1] = (st2.Cmol2seg, st2.xskl) := by
  rw [Prod.ext_iff]
  constructor
  · show (calc_composition_dependent_variables ![![1, 1]] ![1, 1] ![1, 1] ![1]).1 = _
    simp [calc_composition_dependent_variables, Fin.sum_univ_one, Fin.sum_univ_two, st2]
    norm_num
  · show (calc_composition_dependent_variables ![![1, 1]] ![1, 1] ![1, 1] ![1]).2 = _
    funext k l
    fin_cases k <;> fin_cases l <;>
      simp [calc_composition_dependent_variables, Fin.sum_univ_one, Fin.sum_univ_two, st2] <;>
      norm_num

/-- The maximum density of the one-bead test system as an explicit rational. -/
theorem dmax1_eq : dmax1 = 97500000000000 / 47297742975521 := by
  simp only [dmax1, density_max, checkComp_st1]
  simp [st1, ext1, extTest, Fin.sum_univ_one]
  norm_num

theorem dmax1_pos : 0 < dmax1 := by
  rw [dmax1_eq]
  norm_num

theorem reduced_density_eq {st : EosState nc nb} {ext : Ext nc nb}
    {rho : List ℚ} {xi : Fin nc → ℚ} (h : check_density_pos rho = .ok rho) :
    reduced_density st ext rho xi
      = .ok (rho.map fun r => fun m => zetaM (checkComp st ext xi) ext r (m : ℕ)) := by
  simp [reduced_density, h, except_bind_ok]

theorem Ahard_sphere_eq {st : EosState nc nb} {ext : Ext nc nb}
    {rho : List ℚ} {T : ℚ} {xi : Fin nc → ℚ}
    (h : check_density_pos rho = .ok rho) :
    Ahard_sphere st ext rho T xi
      = .ok (rho.map fun r => AHS_pt (checkComp st ext xi) ext r) := by
  simp [Ahard_sphere, h, except_bind_ok]

theorem Afirst_order_eq {st : EosState nc nb} {ext : Ext nc nb}
    {rho : List ℚ} {T : ℚ} {xi : Fin nc → ℚ} {zetax : Option (List ℚ)}
    (h : check_density_pos rho = .ok rho) :
    Afirst_order st ext rho T xi zetax
      = .ok ((List.zip rho (zetax.getD (zeta3_body (checkComp st ext xi) ext rho))).map
          fun p => A1_pt (checkComp st ext xi) ext T p.1 p.2) := by
  simp [Afirst_order, h, except_bind_ok]

theorem Asecond_order_eq {st : EosState nc nb} {ext : Ext nc nb}
    {rho : List ℚ} {T : ℚ} {xi : Fin nc → ℚ} {zetax KHS : Option (List ℚ)}
    (h : check_density_pos rho = .ok rho) :
    Asecond_order st ext rho T xi zetax KHS
      = .ok ((List.zip rho
            (List.zip (zetax.getD (zeta3_body (checkComp st ext xi) ext rho))
              ((KHS.getD ((zetax.getD (zeta3_body (checkComp st ext xi) ext rho)).map
                ext.calc_KHS))))).map
          fun p => A2_pt (checkComp st ext xi) ext T p.1 p.2.1 p.2.2) := by
  simp [Asecond_order, h, except_bind_ok]

theorem Asecond_order_claimed_eq {st : EosState nc nb} {ext : Ext nc nb}
    {rho : List ℚ} {T : ℚ} {xi : Fin nc → ℚ} {zetax KHS : Option (List ℚ)}
    (h : check_density_pos rho = .ok rho) :
    Asecond_order_claimed st ext rho T xi zetax KHS
      = .ok ((List.zip rho
            (List.zip (zetax.getD (zeta3_body (checkComp st ext xi) ext rho))
              ((KHS.getD ((zetax.getD (zeta3_body (checkComp st ext xi) ext rho)).map
                ext.calc_KHS))))).map
          fun p => A2_pt_claimed (checkComp st ext xi) ext T p.1 p.2.1 p.2.2) := by
  simp [Asecond_order_claimed, h, except_bind_ok]

/-- Per density point, the Asecond_order the source computes is the exact
negation of the combination the spec states: the source dropped the overall
minus sign of the final summation. -/
theorem A2_pt_neg (st : EosState nc nb) (ext : Ext nc nb) (T r zx kh : ℚ) :
    A2_pt_claimed st ext T r zx kh = - A2_pt st ext T r zx kh := by
  unfold A2_pt A2_pt_claimed
  rw [neg_mul]
  rw [neg_inj]
  congr 1
  apply Finset.sum_congr rfl
  intro k _
  apply Finset.sum_congr rfl
  intro l _
  ring

theorem PVal.add_zero (a : PVal) : a.add (.val 0) = a := by
  cases a <;> simp [PVal.add]

theorem PVal.zero_add (a : PVal) : (PVal.val 0).add a = a := by
  cases a <;> simp [PVal.add]

theorem PVal.sub_zero (a : PVal) : a.sub (.val 0) = a := by
  cases a <;> simp [PVal.sub]

theorem PVal.zero_sub (a : PVal) : (PVal.val 0).sub a = a.neg := by
  cases a <;> simp [PVal.sub, PVal.neg]

theorem PVal.add_assoc (a b c : PVal) : (a.add b).add c = a.add (b.add c) := by
  cases a <;> cases b <;> cases c <;> simp [PVal.add] <;> ring

theorem PVal.sub_sub (a b c : PVal) : (a.sub b).sub c = a.sub (b.add c) := by
  cases a <;> cases b <;> cases c <;> simp [PVal.sub, PVal.add] <;> ring

theorem PVal.foldl_add_acc (ts : List PVal) (acc : PVal) :
    ts.foldl PVal.add acc = acc.add (PVal.lsum ts) := by
  induction ts generalizing acc with
  | nil => simp [PVal.lsum, PVal.add_zero]
  | cons t ts ih =>
    show (t :: ts).foldl PVal.add acc = acc.add (PVal.lsum (t :: ts))
    rw [List.foldl_cons, ih]
    have : PVal.lsum (t :: ts) = t.add (PVal.lsum ts) := by
      show (t :: ts).foldl PVal.add (.val 0) = _
      rw [List.foldl_cons, ih, PVal.zero_add]
    rw [this, PVal.add_assoc]

/-- The accumulation pattern of the Achain loop: repeatedly subtracting terms
from 0.0 is the IEEE negation of their left-to-right sum (NaN propagation
included). -/
theorem PVal.foldl_sub {α : Type} (l : List α) (f : α → PVal) :
    l.foldl (fun acc a => acc.sub (f a)) (PVal.val 0)
      = PVal.neg (PVal.lsum (l.map f)) := by
  have key : ∀ (l : List α) (acc : PVal),
      l.foldl (fun acc a => acc.sub (f a)) acc = acc.sub (PVal.lsum (l.map f)) := by
    intro l
    induction l with
    | nil => intro acc; simp [PVal.lsum, PVal.sub_zero]
    | cons t ts ih =>
      intro acc
      rw [List.foldl_cons, ih]
      have : PVal.lsum (f t :: ts.map f) = (f t).add (PVal.lsum (ts.map f)) := by
        show (f t :: ts.map f).foldl PVal.add (.val 0) = _
        rw [List.foldl_cons, PVal.foldl_add_acc, PVal.zero_add]
      simp only [List.map_cons, this, PVal.sub_sub]
  rw [key, PVal.zero_sub]

/-- The beadsum accumulator equals the grouping the spec states:
(total occupied-volume-weighted bead count) - 1 + ring correction. -/
theorem beadsum_eq (st : EosState nc nb) (i : Fin nc) :
    beadsum st i = (∑ k, st.nui i k * st.Vks k * st.Sk k) - 1 + st.num_rings i := by
  unfold beadsum
  ring

theorem Amonomer_ok {st : EosState nc nb} {ext : Ext nc nb} {rho : List ℚ}
    {T : ℚ} {xi : Fin nc → ℚ}
    (h : check_density_pos rho = .ok rho)
    (hguard : rho.all (fun r => density_max st ext xi T (13 / 20) < r) = false) :
    ∃ v, Amonomer st ext rho T xi = .ok v := by
  unfold Amonomer
  rw [hguard]
  simp only [Bool.false_eq_true, if_false, except_bind_ok, h,
    reduced_density_eq h, Ahard_sphere_eq h, Afirst_order_eq h,
    Asecond_order_eq h]
  exact ⟨_, rfl⟩

theorem calc_gSW_eq {st : EosState nc nb} {ext : Ext nc nb} {rho : List ℚ}
    {T : ℚ} {xi : Fin nc → ℚ} {zetax : Option (List ℚ)}
    (h : check_density_pos rho = .ok rho) :
    calc_gSW st ext rho T xi zetax
      = .ok ((List.zip rho ((zetax.getD (zeta3_body (checkComp st ext xi) ext rho)))).map
          fun p => fun i j => gSW_pt (checkComp st ext xi) ext T p.1 p.2 i j) := by
  simp [calc_gSW, h, except_bind_ok]

end Helpers

/-! ## The claims -/

/-- C8: calc_Kijklab is independent of its temperature argument: with the
bonding-volume collaborator, the geometric inputs rc_klab, rd_klab and the
reduction ratio all fixed, any two temperatures give identical bonding-volume
output. -/
theorem calc_Kijklab_temperature_independent {nc nb : ℕ} {RC RD K : Type}
    (st : EosState nc nb)
    (bondingVolume : RC → (Fin nc → Fin nc → ℚ) → Option RD → ℚ → K)
    (T1 T2 : ℚ) (rc_klab : RC) (rd_klab : Option RD) (reduction_ratio : ℚ) :
    calc_Kijklab st bondingVolume T1 rc_klab rd_klab reduction_ratio
      = calc_Kijklab st bondingVolume T2 rc_klab rd_klab reduction_ratio := rfl

/-- C9: calc_gr_assoc returns exactly calc_gSW(rho, T, xi) for every input,
whatever string is passed as Ktype: the argument has no effect on the
result. -/
theorem calc_gr_assoc_eq_calc_gSW {nc nb : ℕ} (st : EosState nc nb)
    (ext : Ext nc nb) (rho : List ℚ) (T : ℚ) (xi : Fin nc → ℚ)
    (Ktype : String) :
    calc_gr_assoc st ext rho T xi Ktype = calc_gSW st ext rho T xi none := by
  unfold calc_gr_assoc
  cases h : check_density_pos rho with
  | error e => simp [h, calc_gSW, except_bind_error]
  | ok l =>
    have hl := check_density_pos_ok h
    subst hl
    simp [h, except_bind_ok]

/-- C10: a 2-D density array is silently replaced by its first row inside
_check_density: the check behaves exactly as if only the first row had been
passed, whatever the remaining rows hold, so every downstream computation
sees only the first row. -/
theorem check_density_two_takes_first_row (r : List PVal)
    (rest : List (List PVal)) :
    check_density (.two (r :: rest)) = check_density (.one r) := rfl

/-- C6 counterexample: a 2-D input whose NaN sits outside the first row
contains a NaN entry, yet _check_density accepts it (returning the first
row) instead of raising, so raising is not equivalent to the presence of a
NaN / negative / empty condition in the input as a whole. -/
theorem check_density_nan_second_row_accepted :
    ([[PVal.val 1], [PVal.nan]] : List (List PVal)).any
        (fun row => row.any PVal.isNaN) = true
    ∧ check_density (.two [[PVal.val 1], [PVal.nan]]) = .ok [PVal.val 1] :=
  ⟨rfl, rfl⟩

/-- C6 (amended to scalar and 1-D inputs, the shapes the check inspects in
full): the check raises exactly when the (promoted) 1-D array contains a NaN,
is empty, or contains a negative entry; a scalar is promoted to a one-element
array; and the only non-raising outcome returns the array unchanged in
value. -/
theorem check_density_one_dim_iff (l : List PVal) (v : PVal) :
    ((∃ e, check_density (.one l) = .error e)
        ↔ (l.any PVal.isNaN = true ∨ l = [] ∨ l.any PVal.isNeg = true))
    ∧ check_density (.scalar v) = check_density (.one [v])
    ∧ ((∃ e, check_density (.one l) = .error e)
        ∨ check_density (.one l) = .ok l) := by
  refine ⟨?_, rfl, ?_⟩
  · rw [check_density_one]
    unfold check_density_core
    constructor
    · intro he
      by_cases h1 : l.any PVal.isNaN = true
      · exact Or.inl h1
      · by_cases h2 : l = []
        · exact Or.inr (Or.inl h2)
        · by_cases h3 : l.any PVal.isNeg = true
          · exact Or.inr (Or.inr h3)
          · obtain ⟨e, he⟩ := he
            rw [if_neg (by simp [h1]), if_neg h2, if_neg (by simp [h3])] at he
            cases he
    · intro h
      rcases h with h | h | h
      · exact ⟨.nanDensity, by simp [h]⟩
      · by_cases h1 : l.any PVal.isNaN = true
        · exact ⟨.nanDensity, by simp [h1]⟩
        · exact ⟨.emptyDensity, by simp [h1, h]⟩
      · by_cases h1 : l.any PVal.isNaN = true
        · exact ⟨.nanDensity, by simp [h1]⟩
        · by_cases h2 : l = []
          · exact ⟨.emptyDensity, by simp [h1, h2]⟩
          · exact ⟨.negativeDensity, by simp [h1, h2, h]⟩
  · rw [check_density_one]
    unfold check_density_core
    by_cases h1 : l.any PVal.isNaN = true
    · exact Or.inl ⟨.nanDensity, by simp [h1]⟩
    · by_cases h2 : l = []
      · exact Or.inl ⟨.emptyDensity, by simp [h1, h2]⟩
      · by_cases h3 : l.any PVal.isNeg = true
        · exact Or.inl ⟨.negativeDensity, by simp [h1, h2, h3]⟩
        · exact Or.inr (by simp [h1, h2, h3])

/-- C5: whenever the composition vector handed to a per-point wrapper has
exactly one nonzero entry, both mixture phase-equilibrium wrappers take the
pure-component saturation shortcut: the pressure comes from calc_Psat (the
mixture solvers calc_xT_phase / calc_yT_phase are arbitrary here and never
consulted), the input composition is returned as the coexisting-phase
composition, and the flags are (flagv, flagl, obj) = (0, 1, 0.0). -/
theorem pure_component_saturation_shortcut {O E : Type}
    (calc_Psat : ℚ → List ℚ → O → Except E (ℚ × ℚ × ℚ))
    (calc_xT_phase calc_yT_phase : List ℚ → ℚ → O → Except E (ℚ × List ℚ × ℚ × ℚ × ℚ))
    (mergePguess : O → ℚ → O) (restrictRhodict : O → O) (a : CalcTypes.Args O)
    (P g1 g2 : ℚ)
    (hone : (a.zi.filter (fun z => z ≠ 0)).length = 1)
    (hpsat : calc_Psat a.T a.zi (restrictRhodict (match a.Pguess with
      | some p => mergePguess a.opts p
      | none => a.opts)) = .ok (P, g1, g2)) :
    CalcTypes.phase_xiT_wrapper calc_Psat calc_xT_phase mergePguess restrictRhodict a
        = { P := .val P, comp := .arr a.zi, flagv := 0, flagl := 1, obj := .val 0 }
    ∧ CalcTypes.phase_yiT_wrapper calc_Psat calc_yT_phase mergePguess restrictRhodict a
        = { P := .val P, comp := .arr a.zi, flagv := 0, flagl := 1, obj := .val 0 } := by
  constructor
  · simp only [CalcTypes.phase_xiT_wrapper, hone, if_pos, hpsat]
  · simp only [CalcTypes.phase_yiT_wrapper, hone, if_pos, hpsat]

/-- C5 witness: a two-component call with compositions [0, 1] and a solver
pair in which the saturation routine returns pressure 100 and the mixture
solvers fail outright; both wrappers still return the shortcut record. -/
theorem pure_component_saturation_shortcut_w :
    CalcTypes.phase_xiT_wrapper (O := Unit) (E := Unit)
        (fun _ _ _ => .ok (100, 0, 0)) (fun _ _ _ => .error ()) (fun o _ => o)
        id ⟨300, [0, 1], (), none⟩
        = { P := .val 100, comp := .arr [0, 1], flagv := 0, flagl := 1, obj := .val 0 }
    ∧ CalcTypes.phase_yiT_wrapper (O := Unit) (E := Unit)
        (fun _ _ _ => .ok (100, 0, 0)) (fun _ _ _ => .error ()) (fun o _ => o)
        id ⟨300, [0, 1], (), none⟩
        = { P := .val 100, comp := .arr [0, 1], flagv := 0, flagl := 1, obj := .val 0 } :=
  pure_component_saturation_shortcut (fun _ _ _ => .ok (100, 0, 0))
    (fun _ _ _ => .error ()) (fun _ _ _ => .error ()) (fun o _ => o) id
    ⟨300, [0, 1], (), none⟩ 100 0 0 (by norm_num) rfl

/-- C1 (amended): for a valid (nonempty, nonnegative) density array,
Amonomer raises its density_max input error exactly when EVERY entry strictly
exceeds density_max (the np.all strict comparison of line 433) -- an array
with only some entries at or above density_max is evaluated, not rejected --
and Ahard_sphere performs no density_max check at all: it returns a value for
every valid density array. -/
theorem amonomer_density_guard {nc nb : ℕ} (st : EosState nc nb)
    (ext : Ext nc nb) (rho : List ℚ) (T : ℚ) (xi : Fin nc → ℚ)
    (hne : rho ≠ []) (hpos : ∀ r ∈ rho, 0 ≤ r) :
    (Amonomer st ext rho T xi = .error .densityGuard
        ↔ ∀ r ∈ rho, density_max st ext xi T (13 / 20) < r)
    ∧ (¬ (∀ r ∈ rho, density_max st ext xi T (13 / 20) < r)
        → ∃ v, Amonomer st ext rho T xi = .ok v)
    ∧ (∃ v, Ahard_sphere st ext rho T xi = .ok v) := by
  have hch := check_density_pos_of_valid hne hpos
  have hall : (rho.all (fun r => density_max st ext xi T (13 / 20) < r) = true)
      ↔ ∀ r ∈ rho, density_max st ext xi T (13 / 20) < r := by
    simp [List.all_eq_true]
  refine ⟨⟨?_, ?_⟩, ?_, ?_⟩
  · intro herr
    by_contra hnall
    have hguard : rho.all (fun r => density_max st ext xi T (13 / 20) < r) = false := by
      rcases Bool.eq_false_or_eq_true
          (rho.all (fun r => density_max st ext xi T (13 / 20) < r)) with hb | hb
      · exact absurd (hall.mp hb) hnall
      · exact hb
    obtain ⟨v, hv⟩ := Amonomer_ok hch hguard
    rw [hv] at herr
    cases herr
  · intro hforall
    unfold Amonomer
    rw [if_pos (hall.mpr hforall)]
  · intro hnall
    have hguard : rho.all (fun r => density_max st ext xi T (13 / 20) < r) = false := by
      rcases Bool.eq_false_or_eq_true
          (rho.all (fun r => density_max st ext xi T (13 / 20) < r)) with hb | hb
      · exact absurd (hall.mp hb) hnall
      · exact hb
    exact Amonomer_ok hch hguard
  · exact ⟨_, Ahard_sphere_eq hch⟩

/-- C1 witness: the amended guard characterization applied to the one-bead
test system at the valid density array [1, 2]. -/
theorem amonomer_density_guard_w :
    (([1, 2] : List ℚ) ≠ [] ∧ ∀ r ∈ ([1, 2] : List ℚ), 0 ≤ r)
    ∧ ((Amonomer st1 ext1 [1, 2] 300 ![1] = .error .densityGuard
          ↔ ∀ r ∈ ([1, 2] : List ℚ), density_max st1 ext1 ![1] 300 (13 / 20) < r)
      ∧ (¬ (∀ r ∈ ([1, 2] : List ℚ), density_max st1 ext1 ![1] 300 (13 / 20) < r)
          → ∃ v, Amonomer st1 ext1 [1, 2] 300 ![1] = .ok v)
      ∧ (∃ v, Ahard_sphere st1 ext1 [1, 2] 300 ![1] = .ok v)) :=
  ⟨⟨by simp, by norm_num [List.forall_mem_cons]⟩,
    amonomer_density_guard st1 ext1 [1, 2] 300 ![1] (by simp)
      (by norm_num [List.forall_mem_cons])⟩

/-- C1 counterexample: the density array [dmax1, dmax1/2] has its first entry
AT density_max, yet neither Amonomer nor Ahard_sphere raises: both return
values (the source guard fires only when all entries strictly exceed
density_max, and Ahard_sphere never checks). -/
theorem amonomer_accepts_density_at_maximum :
    (∃ r ∈ [dmax1, dmax1 / 2], dmax1 ≤ r)
    ∧ (∃ v, Amonomer st1 ext1 [dmax1, dmax1 / 2] 300 ![1] = .ok v)
    ∧ (∃ v, Ahard_sphere st1 ext1 [dmax1, dmax1 / 2] 300 ![1] = .ok v) := by
  have hd := dmax1_pos
  have hch : check_density_pos [dmax1, dmax1 / 2] = .ok [dmax1, dmax1 / 2] := by
    apply check_density_pos_of_valid (by simp)
    intro r hr
    rcases List.mem_cons.mp hr with rfl | hr
    · exact le_of_lt hd
    · rcases List.mem_cons.mp hr with rfl | hr
      · linarith
      · cases hr
  have hguard : ([dmax1, dmax1 / 2].all
      (fun r => density_max st1 ext1 ![1] 300 (13 / 20) < r)) = false := by
    simp only [List.all_cons]
    have : ¬ density_max st1 ext1 ![1] 300 (13 / 20) < dmax1 := by
      unfold dmax1
      exact lt_irrefl _
    simp [this]
  refine ⟨⟨dmax1, by simp, le_refl _⟩, ?_, ?_⟩
  · exact Amonomer_ok hch hguard
  · exact ⟨_, Ahard_sphere_eq hch⟩

/-- C4: evaluating parameter_refresh on an EOS whose composition has been set
raises NameError, because the source reads the unbound local variable xi on
gamma_sw.py line 702 instead of self.xi; the composition-dependent cache is
therefore never recomputed and the call does not complete.  Here shown at a
concrete one-bead state with trivial collaborator instantiations. -/
theorem parameter_refresh_nameerror_when_composition_set :
    parameter_refresh (L := Unit) (fun a _ => a)
      (fun _ _ => (st1.sigma_kl, st1.epsilon_kl, st1.lambda_kl))
      (fun c => (c.sigma_ij, c.epsilon_ij, c.lambda_ij))
      { core := { st1 with xi := some ![1] }, beadlibrary := (), crosslibrary := () }
      () () = .error .nameError := rfl

/-- C2: at a concrete valid input (one-bead test system, rho = [1], T = 1,
zetax = [1/2] and KHS = [1] passed explicitly, as the source signature
allows), Asecond_order returns a nonzero value v while the formula of the
claim -- the one with the overall negative sign applied once at the final
summation, as the source comment on line 405 also demands -- returns -v: the
source omits the negative sign. -/
theorem asecond_order_sign_flipped :
    ∃ v : ℚ, v ≠ 0
      ∧ Asecond_order st1 ext1 [1] 1 ![1] (some [1 / 2]) (some [1]) = .ok [v]
      ∧ Asecond_order_claimed st1 ext1 [1] 1 ![1] (some [1 / 2]) (some [1])
          = .ok [-v] := by
  have hch : check_density_pos [1] = .ok [1] := by
    apply check_density_pos_of_valid (by simp)
    norm_num [List.forall_mem_cons]
  refine ⟨A2_pt st1 ext1 1 1 (1 / 2) 1, ?_, ?_, ?_⟩
  · norm_num [A2_pt, g0HS_pt, zetakl_pt, dzetakl_pt, cikl, ckl_coef,
      Fin.sum_univ_one, Fin.sum_univ_three, st1, ext1, extTest, alphakl_of]
  · rw [Asecond_order_eq hch]
    simp [checkComp_st1]
  · rw [Asecond_order_claimed_eq hch]
    simp [checkComp_st1, A2_pt_neg]

/-- C3 (amended): feeding density_max(xi, T) (maxpack mp) back through
reduced_density yields zeta_3 = mp * A / B, where A = sum_k sqrt(xskl_kk) *
sigma_kk^3 is the diagonal sum reduced_density uses and B = sum_kl xskl_kl *
sigma_kl^3 the full double sum density_max inverts; zeta_3 equals mp exactly
when A = B (as in a single-bead system, where xskl = 1), but not for general
multi-bead mixtures. -/
theorem density_max_roundtrip {nc nb : ℕ} (st : EosState nc nb)
    (ext : Ext nc nb) (xi : Fin nc → ℚ) (T mp : ℚ)
    (hpi : ext.pi ≠ 0) (hconv : ext.molecule_per_nm3 ≠ 0)
    (hC : (checkComp st ext xi).Cmol2seg ≠ 0)
    (hB : (∑ k, ∑ l, (checkComp st ext xi).xskl k l *
        (checkComp st ext xi).sigma_kl k l ^ 3) ≠ 0)
    (hd : 0 ≤ density_max st ext xi T mp) :
    ∃ z : Fin 4 → ℚ,
      reduced_density st ext [density_max st ext xi T mp] xi = .ok [z]
      ∧ z 3 = mp * (∑ k, ext.sqrt ((checkComp st ext xi).xskl k k) *
              (checkComp st ext xi).sigma_kl k k ^ 3)
            / (∑ k, ∑ l, (checkComp st ext xi).xskl k l *
              (checkComp st ext xi).sigma_kl k l ^ 3)
      ∧ ((∑ k, ext.sqrt ((checkComp st ext xi).xskl k k) *
              (checkComp st ext xi).sigma_kl k k ^ 3)
            = (∑ k, ∑ l, (checkComp st ext xi).xskl k l *
              (checkComp st ext xi).sigma_kl k l ^ 3)
          → z 3 = mp) := by
  have hch : check_density_pos [density_max st ext xi T mp]
      = .ok [density_max st ext xi T mp] := by
    apply check_density_pos_of_valid (by simp)
    intro r hr
    rw [List.mem_singleton] at hr
    subst hr
    exact hd
  have h3 : zetaM (checkComp st ext xi) ext (density_max st ext xi T mp) 3
      = mp * (∑ k, ext.sqrt ((checkComp st ext xi).xskl k k) *
            (checkComp st ext xi).sigma_kl k k ^ 3)
          / (∑ k, ∑ l, (checkComp st ext xi).xskl k l *
            (checkComp st ext xi).sigma_kl k l ^ 3) := by
    simp only [zetaM, density_max]
    field_simp
    ring
  refine ⟨fun m => zetaM (checkComp st ext xi) ext (density_max st ext xi T mp)
      (m : ℕ), ?_, ?_, ?_⟩
  · rw [reduced_density_eq hch]
    simp
  · exact h3
  · intro hAB
    show zetaM (checkComp st ext xi) ext (density_max st ext xi T mp) 3 = mp
    rw [h3, hAB, mul_div_assoc, div_self hB, mul_one]

/-- C3 witness: the single-bead test system, where A = B = 1, so zeta_3
recovers the packing fraction 13/20 exactly. -/
theorem density_max_roundtrip_w :
    ∃ z : Fin 4 → ℚ,
      reduced_density st1 ext1 [density_max st1 ext1 ![1] 300 (13 / 20)] ![1] = .ok [z]
      ∧ z 3 = 13 / 20 * (∑ k, ext1.sqrt ((checkComp st1 ext1 ![1]).xskl k k) *
              (checkComp st1 ext1 ![1]).sigma_kl k k ^ 3)
            / (∑ k, ∑ l, (checkComp st1 ext1 ![1]).xskl k l *
              (checkComp st1 ext1 ![1]).sigma_kl k l ^ 3)
      ∧ ((∑ k, ext1.sqrt ((checkComp st1 ext1 ![1]).xskl k k) *
              (checkComp st1 ext1 ![1]).sigma_kl k k ^ 3)
            = (∑ k, ∑ l, (checkComp st1 ext1 ![1]).xskl k l *
              (checkComp st1 ext1 ![1]).sigma_kl k l ^ 3)
          → z 3 = 13 / 20) :=
  density_max_roundtrip st1 ext1 ![1] 300 (13 / 20)
    (by norm_num [ext1, extTest])
    (by norm_num [ext1, extTest])
    (by rw [checkComp_st1]; norm_num [st1])
    (by rw [checkComp_st1]; norm_num [st1, Fin.sum_univ_one, sqrtQ])
    dmax1_pos.le

/-- C3 counterexample: in the one-component TWO-bead test system (diameters
1 and 2, equal occupied volumes, mean-rule cross diameter), the round trip
gives zeta_3 = 26/35, which differs from the configured maxpack 0.65 = 13/20
by 13/140 > 1/20: the inversion is not exact for multi-bead mixtures. -/
theorem density_max_roundtrip_two_beads :
    ∃ z : Fin 4 → ℚ,
      reduced_density st2 ext2 [density_max st2 ext2 ![1] 300 (13 / 20)] ![1] = .ok [z]
      ∧ z 3 = 26 / 35
      ∧ (1 / 20 : ℚ) < |z 3 - 13 / 20| := by
  have hB : (∑ k, ∑ l, st2.xskl k l * st2.sigma_kl k l ^ 3) = 63 / 16 := by
    norm_num [st2, Fin.sum_univ_two]
  have hd : density_max st2 ext2 ![1] 300 (13 / 20)
      = 13 / 20 * 6 / (2 * ext2.pi * (63 / 16)) / ext2.molecule_per_nm3 := by
    simp only [density_max, checkComp_st2]
    rw [hB]
    norm_num [st2]
  have hdpos : 0 ≤ density_max st2 ext2 ![1] 300 (13 / 20) := by
    rw [hd]
    norm_num [ext2, extTest]
  have hch : check_density_pos [density_max st2 ext2 ![1] 300 (13 / 20)]
      = .ok [density_max st2 ext2 ![1] 300 (13 / 20)] := by
    apply check_density_pos_of_valid (by simp)
    intro r hr
    rw [List.mem_singleton] at hr
    subst hr
    exact hdpos
  have h3 : zetaM st2 ext2 (density_max st2 ext2 ![1] 300 (13 / 20)) 3 = 26 / 35 := by
    unfold zetaM
    rw [hd]
    have hA : (∑ k, ext2.sqrt (st2.xskl k k) * st2.sigma_kl k k ^ 3) = 9 / 2 := by
      norm_num [st2, ext2, extTest, sqrtQ, Fin.sum_univ_two]
    rw [hA]
    show _ * ext2.molecule_per_nm3 * st2.Cmol2seg * (9 / 2 * (ext2.pi / 6)) = 26 / 35
    norm_num [st2, ext2, extTest]
  refine ⟨fun m => zetaM (checkComp st2 ext2 ![1]) ext2
      (density_max st2 ext2 ![1] 300 (13 / 20)) (m : ℕ), ?_, ?_, ?_⟩
  · rw [reduced_density_eq hch]
    simp
  · show zetaM (checkComp st2 ext2 ![1]) ext2
        (density_max st2 ext2 ![1] 300 (13 / 20)) 3 = 26 / 35
    rw [checkComp_st2]
    exact h3
  · show (1 / 20 : ℚ) < |zetaM (checkComp st2 ext2 ![1]) ext2
        (density_max st2 ext2 ![1] 300 (13 / 20)) 3 - 13 / 20|
    rw [checkComp_st2, h3]
    norm_num [abs_of_nonneg]

/-- C7: for every input, Achain returns (after the density check, which it
shares with every evaluation routine) exactly the array
- sum_i xi[i] * (beadsum_i - 1 + num_rings[i]) * log(gSW_ii) per density
point, with beadsum_i = sum_k nui[i,k] * Vks[k] * Sk[k], under IEEE
(NaN-propagating) arithmetic; the logged-error flag is set exactly when some
entry of that array is NaN, and the array is returned unchanged either way
(never raised, never corrected). -/
theorem achain_formula {nc nb : ℕ} (st : EosState nc nb) (ext : Ext nc nb)
    (rho : List ℚ) (T : ℚ) (xi : Fin nc → ℚ) :
    Achain st ext rho T xi = Except.map (fun rho' =>
      let V := (List.zip rho' (zeta3_body (checkComp st ext xi) ext rho')).map fun p =>
        PVal.neg (PVal.lsum ((List.finRange nc).map fun i =>
          PVal.smul
            (xi i * ((∑ k, st.nui i k * st.Vks k * st.Sk k) - 1 + st.num_rings i))
            (ext.log (gSW_pt (checkComp st ext xi) ext T p.1 p.2 i i))))
      (V, V.any PVal.isNaN)) (check_density_pos rho) := by
  cases h : check_density_pos rho with
  | error e =>
    unfold Achain
    simp [h, except_bind_error, Except.map]
  | ok l =>
    have hlr := check_density_pos_ok h
    rw [hlr] at h
    rw [hlr]
    unfold Achain
    simp only [h, except_bind_ok]
    rw [calc_gSW_eq h]
    simp only [except_bind_ok, Except.map]
    have hAV : (((List.zip rho
            ((none : Option (List ℚ)).getD (zeta3_body (checkComp st ext xi) ext rho))).map
          fun p => fun i j => gSW_pt (checkComp st ext xi) ext T p.1 p.2 i j).map
            fun g => (List.finRange nc).foldl
              (fun acc i => acc.sub (PVal.smul (xi i * beadsum st i) (ext.log (g i i))))
              (PVal.val 0))
        = (List.zip rho (zeta3_body (checkComp st ext xi) ext rho)).map fun p =>
            PVal.neg (PVal.lsum ((List.finRange nc).map fun i =>
              PVal.smul
                (xi i * ((∑ k, st.nui i k * st.Vks k * st.Sk k) - 1 + st.num_rings i))
                (ext.log (gSW_pt (checkComp st ext xi) ext T p.1 p.2 i i)))) := by
      rw [List.map_map]
      apply List.map_congr_left
      intro p _
      show (List.finRange nc).foldl
          (fun acc i => acc.sub (PVal.smul (xi i * beadsum st i)
            (ext.log (gSW_pt (checkComp st ext xi) ext T p.1 p.2 i i))))
          (PVal.val 0) = _
      rw [PVal.foldl_sub]
      simp only [beadsum_eq]
    rw [hAV]

end DespasitoSW
